import Mathlib

/-!
# zuniswapv2 : `uniswap_math.go`

A shallow embedding of the three functions of `uniswap_math.go`
(`main`, `price_to_tick`, `price_to_sqrtp`) and of the primitives of Go's
`math` package they call.

## The value model

A Go `float64` is read as an *exact* extended real: a finite value is a real
number, and the three IEEE-754 special values `+Inf`, `-Inf` and `NaN` are
kept as separate constructors, because the program relies on them for
out-of-domain inputs.  Arithmetic on finite values is exact: binary rounding,
overflow to infinity, underflow and the sign of zero are not represented.  The
special cases of every primitive are the ones documented for Go's `math`
package and for IEEE-754 arithmetic.
-/

namespace ZuniswapV2

/-- Values of Go's `float64`: a finite real, or one of the IEEE-754 specials. -/
inductive Float64 where
  | fin (x : ℝ)
  | posInf
  | negInf
  | nan

namespace Float64

/-- Go's `math.Log`.  Special cases: `Log(+Inf) = +Inf`, `Log(0) = -Inf`,
`Log(x < 0) = NaN`, `Log(NaN) = NaN`. -/
noncomputable def Log : Float64 → Float64
  | nan => nan
  | posInf => posInf
  | negInf => nan
  | fin x => if x < 0 then nan else if x = 0 then negInf else fin (Real.log x)

/-- Go's `math.Floor`, the greatest integer value less than or equal to the
argument.  Special cases: `Floor(±Inf) = ±Inf`, `Floor(NaN) = NaN`. -/
noncomputable def Floor : Float64 → Float64
  | fin x => fin ((⌊x⌋ : ℤ) : ℝ)
  | posInf => posInf
  | negInf => negInf
  | nan => nan

/-- Go's `math.Sqrt`.  Special cases: `Sqrt(+Inf) = +Inf`, `Sqrt(0) = 0`,
`Sqrt(x < 0) = NaN`, `Sqrt(NaN) = NaN`. -/
noncomputable def Sqrt : Float64 → Float64
  | nan => nan
  | posInf => posInf
  | negInf => nan
  | fin x => if x < 0 then nan else fin (Real.sqrt x)

/-- The `float64` operator `/` (IEEE-754 division; a zero divisor is read as
`+0`). -/
noncomputable def div : Float64 → Float64 → Float64
  | nan, _ => nan
  | _, nan => nan
  | fin x, fin y =>
      if y = 0 then (if x = 0 then nan else if 0 < x then posInf else negInf)
      else fin (x / y)
  | fin _, posInf => fin 0
  | fin _, negInf => fin 0
  | posInf, fin y => if y < 0 then negInf else posInf
  | negInf, fin y => if y < 0 then posInf else negInf
  | posInf, posInf => nan
  | posInf, negInf => nan
  | negInf, posInf => nan
  | negInf, negInf => nan

/-- The `float64` operator `*` (IEEE-754 multiplication). -/
noncomputable def mul : Float64 → Float64 → Float64
  | nan, _ => nan
  | _, nan => nan
  | fin x, fin y => fin (x * y)
  | fin x, posInf => if x = 0 then nan else if 0 < x then posInf else negInf
  | fin x, negInf => if x = 0 then nan else if 0 < x then negInf else posInf
  | posInf, fin y => if y = 0 then nan else if 0 < y then posInf else negInf
  | negInf, fin y => if y = 0 then nan else if 0 < y then negInf else posInf
  | posInf, posInf => posInf
  | posInf, negInf => negInf
  | negInf, posInf => negInf
  | negInf, negInf => posInf

/-- The `float64` comparison `<=`: any comparison with `NaN` is false. -/
def le : Float64 → Float64 → Prop
  | nan, _ => False
  | _, nan => False
  | fin x, fin y => x ≤ y
  | fin _, posInf => True
  | fin _, negInf => False
  | posInf, fin _ => False
  | negInf, fin _ => True
  | posInf, posInf => True
  | posInf, negInf => False
  | negInf, posInf => True
  | negInf, negInf => True

/-- Go's `math.Pow(x, y)`, the base-`x` exponential of `y`, on finite
arguments (after the cases `y = 0` and `x = 1`): a zero base, a negative base
with a non-integer exponent (`NaN`), a negative base with an integer exponent,
and a positive base. -/
noncomputable def powFinite (x y : ℝ) : Float64 :=
  if x = 0 then (if y < 0 then posInf else fin 0)
  else if x < 0 then
    (if ((⌊y⌋ : ℤ) : ℝ) = y then fin (x ^ ⌊y⌋) else nan)
  else fin (x ^ y)

/-- Go's `math.Pow(x, y)` with the special cases of its documentation, in the
order the documentation lists them: `Pow(x, 0) = 1` and `Pow(1, y) = 1` for
any `x`, `y` (`NaN` included), then `NaN` arguments, then infinite
arguments.  `Pow(-Inf, y)` is `-Inf` for `y` a positive odd
integer, `+Inf` for any other positive `y`. -/
noncomputable def Pow : Float64 → Float64 → Float64
  | fin x, fin y =>
      if y = 0 then fin 1 else if x = 1 then fin 1 else powFinite x y
  | posInf, fin y => if y = 0 then fin 1 else if 0 < y then posInf else fin 0
  | negInf, fin y =>
      if y = 0 then fin 1
      else if 0 < y then (if ((⌊y⌋ : ℤ) : ℝ) = y ∧ ⌊y⌋ % 2 = 1 then negInf else posInf)
      else fin 0
  | nan, fin y => if y = 0 then fin 1 else nan
  | fin x, nan => if x = 1 then fin 1 else nan
  | fin x, posInf =>
      if x = 1 ∨ x = -1 then fin 1 else if 1 < |x| then posInf else fin 0
  | fin x, negInf =>
      if x = 1 ∨ x = -1 then fin 1 else if 1 < |x| then fin 0 else posInf
  | posInf, posInf => posInf
  | negInf, posInf => posInf
  | posInf, negInf => fin 0
  | negInf, negInf => fin 0
  | posInf, nan => nan
  | negInf, nan => nan
  | nan, posInf => nan
  | nan, negInf => nan
  | nan, nan => nan

end Float64

open Float64

/-- `price_to_tick` of `uniswap_math.go`. -/
noncomputable def price_to_tick (p : Float64) : Float64 :=
  let logValue := div (Log p) (Log (fin 1.0001))
  let tick := Floor logValue
  tick

/-- `price_to_sqrtp` of `uniswap_math.go`. -/
noncomputable def price_to_sqrtp (p : Float64) : Float64 :=
  let q96 := Pow (fin 2) (fin 96)
  mul (Sqrt p) q96

/-- `main` of `uniswap_math.go`: the values handed to `fmt.Println`, one per
call, in program order. -/
noncomputable def main : List Float64 :=
  [price_to_tick (fin 5000), price_to_sqrtp (fin 5000), Pow (fin 10) (fin 2)]

/-! ## Facts about the primitives -/

theorem log_step_pos : 0 < Real.log 1.0001 :=
  Real.log_pos (by norm_num)

theorem Log_fin_pos (p : ℝ) (hp : 0 < p) : Log (fin p) = fin (Real.log p) := by
  show (if p < 0 then nan else if p = 0 then negInf else fin (Real.log p)) = _
  rw [if_neg (not_lt.mpr hp.le), if_neg hp.ne.symm]

theorem Log_step : Log (fin 1.0001) = fin (Real.log 1.0001) :=
  Log_fin_pos 1.0001 (by norm_num)

theorem div_fin_step (x : ℝ) :
    div (fin x) (fin (Real.log 1.0001)) = fin (x / Real.log 1.0001) := by
  show (if Real.log 1.0001 = 0
      then (if x = 0 then nan else if 0 < x then posInf else negInf)
      else fin (x / Real.log 1.0001)) = _
  rw [if_neg log_step_pos.ne.symm]

theorem price_to_tick_fin_pos (p : ℝ) (hp : 0 < p) :
    price_to_tick (fin p) = fin ((⌊Real.log p / Real.log 1.0001⌋ : ℤ) : ℝ) := by
  show Floor (div (Log (fin p)) (Log (fin 1.0001))) = _
  rw [Log_step, Log_fin_pos p hp, div_fin_step]
  rfl

theorem Pow_fin_nat (x : ℝ) (n : ℕ) (hn : n ≠ 0) (hx : 1 < x) :
    Float64.Pow (fin x) (fin (n : ℝ)) = fin (x ^ n) := by
  have h1 : ¬ ((n : ℝ) = 0) := by exact_mod_cast hn
  have h2 : ¬ (x = 1) := hx.ne.symm
  have h3 : ¬ (x = 0) := (lt_trans zero_lt_one hx).ne.symm
  have h4 : ¬ (x < 0) := not_lt.mpr (lt_trans zero_lt_one hx).le
  show (if (n : ℝ) = 0 then fin 1 else if x = 1 then fin 1
      else if x = 0 then (if (n : ℝ) < 0 then posInf else fin 0)
      else if x < 0 then
        (if ((⌊(n : ℝ)⌋ : ℤ) : ℝ) = (n : ℝ) then fin (x ^ ⌊(n : ℝ)⌋) else nan)
      else fin (x ^ (n : ℝ))) = _
  rw [if_neg h1, if_neg h2, if_neg h3, if_neg h4, Real.rpow_natCast]

theorem Pow_two_96 : Pow (fin 2) (fin 96) = fin 79228162514264337593543950336 := by
  have h := Pow_fin_nat 2 96 (by norm_num) (by norm_num)
  have h96 : ((96 : ℕ) : ℝ) = 96 := by norm_num
  have hv : (2 : ℝ) ^ 96 = 79228162514264337593543950336 := by norm_num
  rw [h96, hv] at h
  exact h

theorem price_to_sqrtp_fin_nonneg (p : ℝ) (hp : 0 ≤ p) :
    price_to_sqrtp (fin p) = fin (Real.sqrt p * 79228162514264337593543950336) := by
  show mul (Sqrt (fin p)) (Pow (fin 2) (fin 96)) = _
  rw [Pow_two_96]
  show mul (if p < 0 then nan else fin (Real.sqrt p)) _ = _
  rw [if_neg (not_lt.mpr hp)]
  rfl

theorem Pow_ten_2 : Pow (fin 10) (fin 2) = fin 100 := by
  have h := Pow_fin_nat 10 2 (by norm_num) (by norm_num)
  have h2 : ((2 : ℕ) : ℝ) = 2 := by norm_num
  have hv : (10 : ℝ) ^ 2 = 100 := by norm_num
  rw [h2, hv] at h
  exact h

/-! ## Locating a tick between two consecutive powers of the step -/

theorem floor_log_of_pow_bounds (p b : ℝ) (n : ℕ) (hb : 1 < b)
    (h1 : b ^ n ≤ p) (h2 : p < b ^ (n + 1)) :
    ⌊Real.log p / Real.log b⌋ = (n : ℤ) := by
  have hb0 : 0 < b := lt_trans zero_lt_one hb
  have hlb : 0 < Real.log b := Real.log_pos hb
  have hp : 0 < p := lt_of_lt_of_le (pow_pos hb0 n) h1
  rw [Int.floor_eq_iff]
  constructor
  · rw [le_div_iff₀ hlb]
    have := Real.log_le_log (pow_pos hb0 n) h1
    rw [Real.log_pow] at this
    exact_mod_cast this
  · rw [div_lt_iff₀ hlb]
    have := Real.log_lt_log hp h2
    rw [Real.log_pow] at this
    exact_mod_cast this

theorem step_pow_le (n c : ℕ) (h : 10001 ^ n ≤ c * 10000 ^ n) :
    (1.0001 : ℝ) ^ n ≤ (c : ℝ) := by
  have hc : ((10001 : ℕ) : ℝ) ^ n ≤ (c : ℝ) * ((10000 : ℕ) : ℝ) ^ n := by
    exact_mod_cast h
  have hpos : (0 : ℝ) < ((10000 : ℕ) : ℝ) ^ n := by positivity
  have hb : (1.0001 : ℝ) = ((10001 : ℕ) : ℝ) / ((10000 : ℕ) : ℝ) := by norm_num
  rw [hb, div_pow, div_le_iff₀ hpos]
  exact hc

theorem lt_step_pow (n c : ℕ) (h : c * 10000 ^ n < 10001 ^ n) :
    (c : ℝ) < (1.0001 : ℝ) ^ n := by
  have hc : (c : ℝ) * ((10000 : ℕ) : ℝ) ^ n < ((10001 : ℕ) : ℝ) ^ n := by
    exact_mod_cast h
  have hpos : (0 : ℝ) < ((10000 : ℕ) : ℝ) ^ n := by positivity
  have hb : (1.0001 : ℝ) = ((10001 : ℕ) : ℝ) / ((10000 : ℕ) : ℝ) := by norm_num
  rw [hb, div_pow, lt_div_iff₀ hpos]
  exact hc

theorem step_pow_85176 : 10001 ^ 85176 ≤ 5000 * 10000 ^ 85176 := by decide!

theorem step_pow_85177 : 5000 * 10000 ^ 85177 < 10001 ^ 85177 := by decide!

theorem step_pow_851761 : 10001 ^ 851761 ≤ 5000 ^ 10 * 10000 ^ 851761 := by decide!

theorem step_pow_851762 : 5000 ^ 10 * 10000 ^ 851762 < 10001 ^ 851762 := by decide!

theorem log_ratio_5000_bounds :
    (85176.1 : ℝ) ≤ Real.log 5000 / Real.log 1.0001 ∧
    Real.log 5000 / Real.log 1.0001 < (85176.2 : ℝ) := by
  have h1 := step_pow_le 851761 (5000 ^ 10) step_pow_851761
  have h2 := lt_step_pow 851762 (5000 ^ 10) step_pow_851762
  have hc : (((5000 ^ 10 : ℕ)) : ℝ) = (5000 : ℝ) ^ (10 : ℕ) := by norm_num
  rw [hc] at h1 h2
  have hb : (0 : ℝ) < 1.0001 := by norm_num
  have l1 := Real.log_le_log (pow_pos hb 851761) h1
  have l2 := Real.log_lt_log (pow_pos (by norm_num : (0 : ℝ) < 5000) 10) h2
  rw [Real.log_pow, Real.log_pow] at l1 l2
  have hl := log_step_pos
  constructor
  · rw [le_div_iff₀ hl]
    push_cast at l1
    linarith
  · rw [div_lt_iff₀ hl]
    push_cast at l2
    linarith

theorem price_to_tick_5000 : price_to_tick (fin 5000) = fin 85176 := by
  have h1 : (1.0001 : ℝ) ^ 85176 ≤ ((5000 : ℕ) : ℝ) := step_pow_le 85176 5000 step_pow_85176
  have h2 : ((5000 : ℕ) : ℝ) < (1.0001 : ℝ) ^ (85176 + 1) :=
    lt_step_pow 85177 5000 step_pow_85177
  have hfl := floor_log_of_pow_bounds ((5000 : ℕ) : ℝ) 1.0001 85176 (by norm_num) h1 h2
  have h5 : ((5000 : ℕ) : ℝ) = 5000 := by norm_num
  rw [h5] at hfl
  rw [price_to_tick_fin_pos 5000 (by norm_num), hfl]
  norm_num

/-! ## The square root of 5000 -/

theorem sqrt_5000_lower : (70.71067811 : ℝ) ≤ Real.sqrt 5000 := by
  apply Real.le_sqrt_of_sq_le
  norm_num

theorem sqrt_5000_upper : Real.sqrt 5000 ≤ (70.71067812 : ℝ) := by
  rw [Real.sqrt_le_left (by norm_num)]
  norm_num

theorem price_to_sqrtp_5000 :
    price_to_sqrtp (fin 5000) = fin (Real.sqrt 5000 * 2 ^ 96) := by
  rw [price_to_sqrtp_fin_nonneg 5000 (by norm_num)]
  norm_num

/-! ## The claims -/

/-- C2: for every price >= 0, `price_to_sqrtp(price)` is
`sqrt(price) * 79228162514264337593543950336`, and the scale factor `q96`,
computed as `Pow(2, 96)`, is exactly the integer
79228162514264337593543950336. -/
theorem price_to_sqrtp_eq_sqrt_mul_q96 (price : ℝ) (hprice : 0 ≤ price) :
    price_to_sqrtp (fin price)
        = fin (Real.sqrt price * 79228162514264337593543950336) ∧
    Pow (fin 2) (fin 96)
        = fin (((79228162514264337593543950336 : ℕ) : ℝ)) ∧
    (79228162514264337593543950336 : ℕ) = 2 ^ 96 := by
  refine ⟨price_to_sqrtp_fin_nonneg price hprice, ?_, by norm_num⟩
  rw [Pow_two_96]
  norm_num

/-- Witness of C2 at price 4. -/
theorem price_to_sqrtp_eq_sqrt_mul_q96_witness :
    (0 : ℝ) ≤ 4 ∧
    price_to_sqrtp (fin 4)
        = fin (Real.sqrt 4 * 79228162514264337593543950336) :=
  ⟨by norm_num, (price_to_sqrtp_eq_sqrt_mul_q96 4 (by norm_num)).1⟩

/-- C3 as stated fails: `price_to_tick(5000)` is not 84222. -/
theorem price_to_tick_5000_ne_84222 :
    price_to_tick (fin 5000) ≠ fin 84222 := by
  rw [price_to_tick_5000]
  intro h
  have h2 : (85176 : ℝ) = 84222 := Float64.fin.inj h
  norm_num at h2

/-- C3, amended: `price_to_tick(5000)`, the first value `main` prints, is
85176, the floor of `ln(5000) / ln(1.0001)`, a quotient that lies between
85176.1 and 85176.2. -/
theorem main_first_value_85176 :
    main.head? = some (price_to_tick (fin 5000)) ∧
    price_to_tick (fin 5000) = fin 85176 ∧
    ⌊Real.log 5000 / Real.log 1.0001⌋ = 85176 ∧
    (85176.1 : ℝ) ≤ Real.log 5000 / Real.log 1.0001 ∧
    Real.log 5000 / Real.log 1.0001 < (85176.2 : ℝ) := by
  refine ⟨rfl, price_to_tick_5000, ?_, log_ratio_5000_bounds⟩
  have h := price_to_tick_5000
  rw [price_to_tick_fin_pos 5000 (by norm_num)] at h
  have h2 : ((⌊Real.log 5000 / Real.log 1.0001⌋ : ℤ) : ℝ) = 85176 := Float64.fin.inj h
  exact_mod_cast h2

/-- C4 as stated fails: `price_to_sqrtp(5000)` is `sqrt(5000) * 2^96`, and
the relative distance of that value from 5.602277097478614e27 exceeds
1e-9. -/
theorem price_to_sqrtp_5000_far_from_e27 :
    price_to_sqrtp (fin 5000) = fin (Real.sqrt 5000 * 2 ^ 96) ∧
    ¬ (|Real.sqrt 5000 * 2 ^ 96 - 5.602277097478614e27| / 5.602277097478614e27
        ≤ (1e-9 : ℝ)) := by
  refine ⟨price_to_sqrtp_5000, ?_⟩
  have hlo := sqrt_5000_lower
  rw [not_le, lt_div_iff₀ (by norm_num)]
  refine lt_of_lt_of_le ?_ (le_abs_self _)
  norm_num
  linarith

/-- C4, amended: `price_to_sqrtp(5000)`, the second value `main` prints, is
`sqrt(5000) * 2^96`, and its relative distance from 5.602277097478614e30 is
at most 1e-9. -/
theorem main_second_value_near_e30 :
    main.tail.head? = some (price_to_sqrtp (fin 5000)) ∧
    price_to_sqrtp (fin 5000) = fin (Real.sqrt 5000 * 2 ^ 96) ∧
    |Real.sqrt 5000 * 2 ^ 96 - 5.602277097478614e30| / 5.602277097478614e30
        ≤ (1e-9 : ℝ) := by
  refine ⟨rfl, price_to_sqrtp_5000, ?_⟩
  have hlo := sqrt_5000_lower
  have hhi := sqrt_5000_upper
  rw [div_le_iff₀ (by norm_num), abs_le]
  constructor
  · norm_num
    linarith
  · norm_num
    linarith

/-- C5: `price_to_tick` is monotonically non-decreasing on positive prices:
for 0 < p <= q, `price_to_tick(p) <= price_to_tick(q)`. -/
theorem price_to_tick_monotone (p q : ℝ) (hp : 0 < p) (hpq : p ≤ q) :
    Float64.le (price_to_tick (fin p)) (price_to_tick (fin q)) := by
  have hq : 0 < q := lt_of_lt_of_le hp hpq
  rw [price_to_tick_fin_pos p hp, price_to_tick_fin_pos q hq]
  show ((⌊Real.log p / Real.log 1.0001⌋ : ℤ) : ℝ)
      ≤ ((⌊Real.log q / Real.log 1.0001⌋ : ℤ) : ℝ)
  have hlog : Real.log p ≤ Real.log q := Real.log_le_log hp hpq
  have hdiv : Real.log p / Real.log 1.0001 ≤ Real.log q / Real.log 1.0001 :=
    div_le_div_of_nonneg_right hlog log_step_pos.le
  exact_mod_cast Int.floor_mono hdiv

/-- Witness of C5 at the prices 4545 and 5000. -/
theorem price_to_tick_monotone_witness :
    (0 : ℝ) < 4545 ∧ (4545 : ℝ) ≤ 5000 ∧
    Float64.le (price_to_tick (fin 4545)) (price_to_tick (fin 5000)) :=
  ⟨by norm_num, by norm_num,
    price_to_tick_monotone 4545 5000 (by norm_num) (by norm_num)⟩

/-- C6: `price_to_tick(1.0001)` is 1. -/
theorem price_to_tick_step_eq_one : price_to_tick (fin 1.0001) = fin 1 := by
  rw [price_to_tick_fin_pos 1.0001 (by norm_num), div_self log_step_pos.ne.symm]
  norm_num

/-- C7: `price_to_tick(1)` is 0, because `Log(1)` is 0. -/
theorem price_to_tick_one_eq_zero :
    Log (fin 1) = fin 0 ∧ price_to_tick (fin 1) = fin 0 := by
  constructor
  · rw [Log_fin_pos 1 (by norm_num), Real.log_one]
  · rw [price_to_tick_fin_pos 1 (by norm_num), Real.log_one, zero_div]
    norm_num

/-- C8: `price_to_sqrtp(0)` is 0. -/
theorem price_to_sqrtp_zero : price_to_sqrtp (fin 0) = fin 0 := by
  rw [price_to_sqrtp_fin_nonneg 0 le_rfl, Real.sqrt_zero, zero_mul]

/-- C10: `main` produces exactly three values, in this order:
`price_to_tick(5000)`, `price_to_sqrtp(5000)` and `Pow(10, 2)`; the third
value is exactly 100. -/
theorem main_three_values :
    main = [price_to_tick (fin 5000), price_to_sqrtp (fin 5000),
      Pow (fin 10) (fin 2)] ∧
    main.length = 3 ∧
    main.get? 2 = some (fin 100) := by
  refine ⟨rfl, rfl, ?_⟩
  show some (Pow (fin 10) (fin 2)) = some (fin 100)
  rw [Pow_ten_2]

/-! ## Integer powers of the step and the quotient of logarithms -/

theorem Log_fin_neg (p : ℝ) (hp : p < 0) : Log (fin p) = nan := by
  show (if p < 0 then nan else if p = 0 then negInf else fin (Real.log p)) = _
  rw [if_pos hp]

theorem Log_fin_zero : Log (fin 0) = negInf := by
  show (if (0 : ℝ) < 0 then nan else if (0 : ℝ) = 0 then negInf
      else fin (Real.log 0)) = _
  rw [if_neg (lt_irrefl 0), if_pos rfl]

/-- C12: for a non-positive price `price_to_tick` validates nothing and never
yields a finite tick: it returns `-Inf` when the price is 0 and `NaN` when the
price is negative. -/
theorem price_to_tick_nonpos (price : ℝ) (hprice : price ≤ 0) :
    (price = 0 → price_to_tick (fin price) = negInf) ∧
    (price < 0 → price_to_tick (fin price) = nan) ∧
    ∀ t : ℝ, price_to_tick (fin price) ≠ fin t := by
  have hzero : price = 0 → price_to_tick (fin price) = negInf := by
    intro h
    subst h
    show Floor (div (Log (fin 0)) (Log (fin 1.0001))) = negInf
    rw [Log_fin_zero, Log_step]
    show Floor (if Real.log 1.0001 < 0 then posInf else negInf) = negInf
    rw [if_neg (not_lt.mpr log_step_pos.le)]
    rfl
  have hneg : price < 0 → price_to_tick (fin price) = nan := by
    intro h
    show Floor (div (Log (fin price)) (Log (fin 1.0001))) = nan
    rw [Log_fin_neg price h, Log_step]
    rfl
  refine ⟨hzero, hneg, ?_⟩
  intro t ht
  rcases hprice.lt_or_eq with h | h
  · rw [hneg h] at ht
    exact Float64.noConfusion ht
  · rw [hzero h] at ht
    exact Float64.noConfusion ht

/-- Witness of C12 at the prices 0 and -1. -/
theorem price_to_tick_nonpos_witness :
    price_to_tick (fin 0) = negInf ∧ price_to_tick (fin (-1)) = nan :=
  ⟨(price_to_tick_nonpos 0 le_rfl).1 rfl,
    (price_to_tick_nonpos (-1) (by norm_num)).2.1 (by norm_num)⟩

/-- C13: for every price < 0, `price_to_sqrtp` validates nothing and returns
`NaN`: `Sqrt` yields `NaN`, which the multiplication by `q96` propagates. -/
theorem price_to_sqrtp_neg (price : ℝ) (hprice : price < 0) :
    Sqrt (fin price) = nan ∧ price_to_sqrtp (fin price) = nan := by
  have hs : Sqrt (fin price) = nan := by
    show (if price < 0 then nan else fin (Real.sqrt price)) = nan
    rw [if_pos hprice]
  refine ⟨hs, ?_⟩
  show mul (Sqrt (fin price)) (Pow (fin 2) (fin 96)) = nan
  rw [hs, Pow_two_96]
  rfl

/-- Witness of C13 at price -1. -/
theorem price_to_sqrtp_neg_witness :
    (-1 : ℝ) < 0 ∧ price_to_sqrtp (fin (-1)) = nan :=
  ⟨by norm_num, (price_to_sqrtp_neg (-1) (by norm_num)).2⟩

/-- C16: the sign of the tick tells on which side of parity the price lies:
for every price > 0, `price_to_tick(price) >= 0` if and only if `price >= 1`,
so every price strictly between 0 and 1 has a tick of at most -1. -/
theorem price_to_tick_nonneg_iff (price : ℝ) (hprice : 0 < price) :
    (Float64.le (fin 0) (price_to_tick (fin price)) ↔ 1 ≤ price) ∧
    (price < 1 → Float64.le (price_to_tick (fin price)) (fin (-1))) := by
  rw [price_to_tick_fin_pos price hprice]
  constructor
  · show (0 : ℝ) ≤ ((⌊Real.log price / Real.log 1.0001⌋ : ℤ) : ℝ) ↔ 1 ≤ price
    rw [Int.cast_nonneg, Int.floor_nonneg, le_div_iff₀ log_step_pos, zero_mul,
      Real.log_nonneg_iff hprice]
  · intro h
    show ((⌊Real.log price / Real.log 1.0001⌋ : ℤ) : ℝ) ≤ -1
    have hlog : Real.log price / Real.log 1.0001 < ((0 : ℤ) : ℝ) := by
      rw [Int.cast_zero]
      exact div_neg_of_neg_of_pos (Real.log_neg hprice h) log_step_pos
    have hfl : ⌊Real.log price / Real.log 1.0001⌋ ≤ -1 := by
      have := Int.floor_lt.mpr hlog
      omega
    exact_mod_cast hfl

/-- Witness of C16 at price 5000. -/
theorem price_to_tick_nonneg_iff_witness :
    (0 : ℝ) < 5000 ∧
    (Float64.le (fin 0) (price_to_tick (fin 5000)) ↔ (1 : ℝ) ≤ 5000) :=
  ⟨by norm_num, (price_to_tick_nonneg_iff 5000 (by norm_num)).1⟩

end ZuniswapV2
